import Mathlib

/-!
Verification of the Substance-to-Redshift material importer (`src/main.py`).

The script is embedded shallowly:

* Python strings are modelled as `List Char` (`Str`); `str s` injects a Lean
  string literal.
* The catalog `loaded_mats` (a Python dict of dicts) is modelled as an
  insertion-ordered association list; `dict.setdefault` becomes `setdefaultT` /
  `insertEntry`, first-match lookup becomes `alookup`.
* Calls into the Maya `cmds` API are modelled as events (`HostEv`).  Executing a
  piece of the importer yields a `Res`: the list of host calls issued, plus an
  optional uncaught exception (`Err`).  A host-call oracle `fail : Ev → Bool`
  says which host calls the host refuses (raising an exception); `alwaysOk` is
  the host that never refuses.
* Python exceptions (`ValueError` from tuple unpacking, `KeyError` from dict
  indexing, and refused host calls) surface as `Err`; uncaught exceptions abort
  the rest of the modelled computation, exactly as in Python (`seq`).
* `os.path` functions are modelled with POSIX semantics (`os.path.normcase` is
  the identity there, `os.path.join folder file = folder ++ "/" ++ file`);
  `os.path.splitext` is modelled as splitting at the last dot, which agrees
  with Python on every file name that passes the extension test of the scanner.
* `os.listdir folder` is an input of the scan: the list of file names found in
  the folder.
-/

namespace MatImp

/-- Python strings, modelled as lists of characters. -/
abbrev Str : Type := List Char

/-- Inject a Lean string literal into the model. -/
def str (s : String) : Str := s.data

/-- `p.isPrefixOf s` on character lists (`str.startswith`). -/
def ispre : Str → Str → Bool
  | [], _ => true
  | _ :: _, [] => false
  | a :: p, b :: s => decide (a = b) && ispre p s

/-- `s.endswith suf` (Python `str.endswith`). -/
def endsw (suf s : Str) : Bool := ispre suf.reverse s.reverse

/-- `MatImporter._EXTENSIONS = ".png", ".bmp", ".jpeg", ".jpg"`. -/
def EXTENSIONS : List Str := [str ".png", str ".bmp", str ".jpeg", str ".jpg"]

/-- `file.endswith(MatImporter._EXTENSIONS)`: the scanner's file-selection
test (Python `endswith` with a tuple argument: any of the suffixes). -/
def selected (file : Str) : Bool := EXTENSIONS.any (fun e => endsw e file)

/-- Split a string at the LAST occurrence of `sep`:
`s.rsplit(sep, 1)` when it returns two parts; `none` when `sep ∉ s`
(in which case the Python tuple unpacking raises `ValueError`). -/
def rsplit1 (sep : Char) : Str → Option (Str × Str)
  | [] => none
  | c :: rest =>
    match rsplit1 sep rest with
    | some (a, b) => some (c :: a, b)
    | none => if c = sep then some ([], rest) else none

/-- Stem of `os.path.splitext`: everything before the last dot (the whole
name when there is no dot).  Agrees with Python on every name that passed
`selected` (such names always contain a dot with material left of it). -/
def splitextStem (s : Str) : Str :=
  match rsplit1 '.' s with
  | some (a, _) => a
  | none => s

/-- `stem.removeprefix("Mesh_")` with the concrete prefix `_PREFIX`. -/
def removePrefixMesh : Str → Str
  | 'M' :: 'e' :: 's' :: 'h' :: '_' :: rest => rest
  | s => s

/-- `s.replace("_mat", "")` with the concrete suffix token `_SUFFIX`:
delete every (leftmost-first, non-overlapping) occurrence of `"_mat"`. -/
def replaceMat : Str → Str
  | '_' :: 'm' :: 'a' :: 't' :: rest => replaceMat rest
  | c :: rest => c :: replaceMat rest
  | [] => []

/-- `path.splitext(file)[0].removeprefix(_PREFIX).replace(_SUFFIX, "").rsplit("_", 1)`:
the parsing pipeline of `load_materials_data` on one file name.
`none` models the `ValueError` raised by unpacking a one-element `rsplit`. -/
def parseName (file : Str) : Option (Str × Str) :=
  rsplit1 '_' (replaceMat (removePrefixMesh (splitextStem file)))

/-- Python `str.capitalize`: first character uppercased, ALL remaining
characters lowercased (ASCII model). -/
def capitalizeP : Str → Str
  | [] => []
  | c :: rest => c.toUpper :: rest.map Char.toLower

/-- `os.path.join` (POSIX), composed with `os.path.normcase`, which is the
identity on POSIX. -/
def pathJoin (folder file : Str) : Str := folder ++ '/' :: file

/-- A texture entry `[path, tex_import_bool]`. -/
abbrev TexEntry : Type := Str × Bool

/-- The inner dict `{tex_name: (path, tex_import_bool)}`, insertion ordered. -/
abbrev TexMap : Type := List (Str × TexEntry)

/-- A material entry `[{tex_name: ...}, mat_import_bool]`. -/
abbrev MatEntry : Type := TexMap × Bool

/-- `loaded_mats`: `{mat_name: ({tex_name: (path, bool)}, bool)}`, insertion
ordered. -/
abbrev Catalog : Type := List (Str × MatEntry)

/-- Dict lookup: value at the first matching key. -/
def alookup {α : Type} : List (Str × α) → Str → Option α
  | [], _ => none
  | (k, v) :: rest, key => if k = key then some v else alookup rest key

/-- Replace the value stored at `key` (first occurrence), keeping order. -/
def aupdate {α : Type} : List (Str × α) → Str → α → List (Str × α)
  | [], _, _ => []
  | (k, v) :: rest, key, nv =>
    if k = key then (k, nv) :: rest else (k, v) :: aupdate rest key nv

/-- `dict.setdefault k v` on the inner texture dict: keep an existing entry,
append a fresh one otherwise. -/
def setdefaultT (m : TexMap) (k : Str) (v : TexEntry) : TexMap :=
  match alookup m k with
  | some _ => m
  | none => m ++ [(k, v)]

/-- One catalog insertion of `load_materials_data`:
`loaded_mats.setdefault(mat, [{}, True])[0].setdefault(tex, [path, True])`. -/
def insertEntry (cat : Catalog) (mk tk p : Str) : Catalog :=
  match alookup cat mk with
  | some (tm, flag) => aupdate cat mk (setdefaultT tm tk (p, true), flag)
  | none => cat ++ [(mk, (setdefaultT [] tk (p, true), true))]

/-- Host calls and prints issued by the importer. -/
inductive HostEv : Type where
  | shadingNode (nodeType nodeName : Str) : HostEv
  | sets (nodeName : Str) : HostEv
  | connectAttr (src dst : Str) : HostEv
  | setAttrStr (attr value : Str) : HostEv
  | setAttrNum (attr : Str) (value : Nat) : HostEv
  | defaultNavigation (source dst : Str) : HostEv
  | printMsg (msg : Str) : HostEv
deriving DecidableEq

/-- Uncaught Python exceptions of the modelled script. -/
inductive Err : Type where
  | hostFail (ev : HostEv) : Err
  | keyError (key : Str) : Err
  | valueError : Err
deriving DecidableEq

/-- Processing one file name in the loop of `load_materials_data`. -/
def scanStep (cat : Catalog) (folder file : Str) : Except Err Catalog :=
  if selected file then
    match parseName file with
    | none => Except.error Err.valueError
    | some (m, t) =>
      Except.ok (insertEntry cat (capitalizeP m) t (pathJoin folder file))
  else Except.ok cat

/-- `load_materials_data(folder)` run on the directory listing `files`,
starting from the current catalog `cat` (the method never clears it). -/
def scanFiles (folder : Str) : Catalog → List Str → Except Err Catalog
  | cat, [] => Except.ok cat
  | cat, f :: fs =>
    match scanStep cat folder f with
    | Except.error e => Except.error e
    | Except.ok c => scanFiles folder c fs

/-- Result of running a piece of the importer: the host calls / prints issued
(in order), and the uncaught exception, if any. -/
structure Res : Type where
  evs : List HostEv
  err : Option Err
deriving DecidableEq

/-- Python sequencing: once an exception is raised, nothing further runs. -/
def seq (r₁ r₂ : Res) : Res :=
  match r₁.err with
  | some _ => r₁
  | none => ⟨r₁.evs ++ r₂.evs, r₂.err⟩

/-- Issue one host call against the host oracle `fail`; a refused call raises
and emits nothing. -/
def hostCall (fail : HostEv → Bool) (ev : HostEv) : Res :=
  if fail ev then ⟨[], some (Err.hostFail ev)⟩ else ⟨[ev], none⟩

/-- Issue a list of host calls in order, stopping at the first refusal. -/
def callAll (fail : HostEv → Bool) : List HostEv → Res
  | [] => ⟨[], none⟩
  | e :: rest => seq (hostCall fail e) (callAll fail rest)

/-- A `print` never raises. -/
def emitPrint (msg : Str) : Res := ⟨[HostEv.printMsg msg], none⟩

/-- The host that accepts every call. -/
def alwaysOk : HostEv → Bool := fun _ => false

/-- The `TexType` enum. -/
inductive TexType : Type where
  | BaseColor | Metallic | Normal | Roughness | Emissive | Height
deriving DecidableEq

/-- `TexType` member names (`tex_type.name`). -/
def TexType.tname : TexType → Str
  | .BaseColor => str "BaseColor"
  | .Metallic => str "Metallic"
  | .Normal => str "Normal"
  | .Roughness => str "Roughness"
  | .Emissive => str "Emissive"
  | .Height => str "Height"

/-- `TexType` member values (`tex_type.value`): the shader input slots. -/
def TexType.tvalue : TexType → Str
  | .BaseColor => str "diffuse_color"
  | .Metallic => str "refl_metalness"
  | .Normal => str "bump_input"
  | .Roughness => str "refl_roughness"
  | .Emissive => str "emissive_not_implemented"
  | .Height => str "height_not_implemented"

/-- `TexType[tex_name]`: exact member-name lookup; `none` models the
`KeyError` caught by `import_loaded_material`. -/
def texTypeOfName (s : Str) : Option TexType :=
  if s = str "BaseColor" then some TexType.BaseColor
  else if s = str "Metallic" then some TexType.Metallic
  else if s = str "Normal" then some TexType.Normal
  else if s = str "Roughness" then some TexType.Roughness
  else if s = str "Emissive" then some TexType.Emissive
  else if s = str "Height" then some TexType.Height
  else none

/-- `f"{node}.{attr}"`. -/
def attrOf (node a : Str) : Str := node ++ '.' :: a

/-- `MatImporter._FILE_NODE_SIMPLE_BINDS`. -/
def FILE_NODE_SIMPLE_BINDS : List Str :=
  [str "coverage", str "wrapU", str "mirrorU", str "mirrorV",
   str "vertexUvOne", str "vertexCameraOne", str "rotateFrame", str "offset",
   str "repeatUV", str "wrapV", str "noiseUV", str "stagger",
   str "vertexUvTwo", str "translateFrame", str "vertexUvThree", str "rotateUV"]

/-- `MatImporter._FILE_NODE_UNIQUE_BINDS`. -/
def FILE_NODE_UNIQUE_BINDS : List (Str × Str) :=
  [(str "outUV", str "uv"), (str "outUvFilterSize", str "uvFilterSize")]

/-- The host calls issued by `MatImporter._create_texture_node(name, file_name,
isRaw)`, in order. -/
def createTextureCalls (nodeBase fileName : Str) (isRaw : Bool) : List HostEv :=
  let node_file := nodeBase ++ str "_file"
  let node_tex := nodeBase ++ str "_texture"
  [HostEv.shadingNode (str "file") node_file,
   HostEv.shadingNode (str "place2dTexture") node_tex]
  ++ FILE_NODE_SIMPLE_BINDS.map
      (fun c => HostEv.connectAttr (attrOf node_tex c) (attrOf node_file c))
  ++ FILE_NODE_UNIQUE_BINDS.map
      (fun ab => HostEv.connectAttr (attrOf node_tex ab.1) (attrOf node_file ab.2))
  ++ [HostEv.setAttrStr (attrOf node_file (str "fileTextureName")) fileName]
  ++ (if isRaw then [HostEv.setAttrStr (attrOf node_file (str "colorSpace")) (str "Raw")]
      else [])

/-- `MatImporter._create_texture_node`, run against the host oracle. -/
def create_texture_node (fail : HostEv → Bool) (nodeBase fileName : Str)
    (isRaw : Bool) : Res :=
  callAll fail (createTextureCalls nodeBase fileName isRaw)

/-- The diagnostic printed for an unrecognized texture token
(`material_node` is the requested material name: the modelled host honours
requested node names). -/
def diagMsg (mname t p : Str) : Str :=
  t ++ str " texture type is not supported\n" ++ mname ++ '_' :: t
    ++ str " was not imported\nFile: " ++ p ++ str "\n"

/-- Modelled host behavior for `cmds.ls(sl=True)[0]` right after a
`defaultNavigation` call: the auto-created conversion (bump) node is the
current selection.  Modelled as a deterministic fresh name. -/
def selAfterNav (node_file : Str) : Str := str "bump1_" ++ node_file

/-- The body of the texture loop of `import_loaded_material`, for one entry
`(tex_name, (file, is_import))` of the material's texture dict. -/
def processTex (fail : HostEv → Bool) (filt : List TexType) (mname : Str)
    (e : Str × TexEntry) : Res :=
  let t := e.1
  let file := e.2.1
  let is_import := e.2.2
  if is_import = false then ⟨[], none⟩
  else
    match texTypeOfName t with
    | none => emitPrint (diagMsg mname t file)
    | some ty =>
      if ty ∈ filt then
        let nodeBase := mname ++ '_' :: ty.tname
        let node_file := nodeBase ++ str "_file"
        seq (create_texture_node fail nodeBase file (decide (ty ≠ TexType.BaseColor)))
          (seq (hostCall fail (HostEv.defaultNavigation node_file (attrOf mname ty.tvalue)))
            (if ty = TexType.Normal then
              hostCall fail (HostEv.setAttrNum (attrOf (selAfterNav node_file) (str "inputType")) 1)
             else if ty = TexType.Metallic then
              hostCall fail (HostEv.setAttrNum (attrOf mname (str "refl_fresnel_mode")) 2)
             else ⟨[], none⟩))
      else ⟨[], none⟩

/-- The three host calls issued by `import_loaded_material` before it touches
the catalog: shader node, shading-group node, and their connection. -/
def headerCalls (mname : Str) : List HostEv :=
  [HostEv.shadingNode (str "RedshiftMaterial") mname,
   HostEv.sets (str "rsMaterial_" ++ mname),
   HostEv.connectAttr (attrOf mname (str "outColor"))
     (attrOf (str "rsMaterial_" ++ mname) (str "surfaceShader"))]

/-- The texture loop of `import_loaded_material`. -/
def runTexList (fail : HostEv → Bool) (filt : List TexType) (mname : Str) :
    List (Str × TexEntry) → Res
  | [] => ⟨[], none⟩
  | e :: rest => seq (processTex fail filt mname e) (runTexList fail filt mname rest)

/-- `MatImporter.import_loaded_material(material_name)`.  The dict indexing
`self.loaded_mats[material_name]` happens only after the three header host
calls; a missing key raises `KeyError` there. -/
def import_loaded_material (fail : HostEv → Bool) (filt : List TexType)
    (cat : Catalog) (mname : Str) : Res :=
  seq (callAll fail (headerCalls mname))
    (match alookup cat mname with
     | none => ⟨[], some (Err.keyError mname)⟩
     | some (texmap, _) => runTexList fail filt mname texmap)

/-- The material loop of `import_all_loaded_materials`: skip materials whose
`mat_import_bool` is false; an uncaught exception aborts the loop. -/
def runMatList (fail : HostEv → Bool) (filt : List TexType) (cat : Catalog) :
    List (Str × MatEntry) → Res
  | [] => ⟨[], none⟩
  | (n, (_, imp)) :: rest =>
    if imp then
      seq (import_loaded_material fail filt cat n) (runMatList fail filt cat rest)
    else runMatList fail filt cat rest

/-- The mutable state of a `MatImporter` instance. -/
structure ImporterState : Type where
  loaded_mats : Catalog
  texture_type_filter : List TexType

/-- `MatImporter.import_all_loaded_materials()`. -/
def import_all_loaded_materials (fail : HostEv → Bool) (st : ImporterState) : Res :=
  runMatList fail st.texture_type_filter st.loaded_mats st.loaded_mats

/-- Run `import_loaded_material` for each material of a list, unconditionally. -/
def runIncluded (fail : HostEv → Bool) (filt : List TexType) (cat : Catalog) :
    List (Str × MatEntry) → Res
  | [] => ⟨[], none⟩
  | (n, _) :: rest =>
    seq (import_loaded_material fail filt cat n) (runIncluded fail filt cat rest)

/-- Spec-side definition of `buildAll`, following the spec's words: iterate the
catalog's materials in mapping order and call `buildMaterial` exactly for
those whose include flag is true. -/
def specBuildAll (fail : HostEv → Bool) (st : ImporterState) : Res :=
  runIncluded fail st.texture_type_filter st.loaded_mats
    (st.loaded_mats.filter (fun e => e.2.2))

/-- `MatImporter.__init__`: the filter starts as all texture types minus
`Emissive` and `Height` (sets are modelled as membership lists). -/
def initFilter : List TexType :=
  [TexType.BaseColor, TexType.Metallic, TexType.Normal, TexType.Roughness]

/-- `set.add` (UI checkbox switched on). -/
def insertTy (ty : TexType) (f : List TexType) : List TexType :=
  if ty ∈ f then f else ty :: f

/-- `set.remove` (UI checkbox switched off; the UI only removes a present
member, so no `KeyError` arises). -/
def removeTy (ty : TexType) (f : List TexType) : List TexType :=
  f.filter (fun x => decide (x ≠ ty))

/-- `on_material_toggle_switched`: set one material's `mat_import_bool`. -/
def setMatFlag (cat : Catalog) (name : Str) (b : Bool) : Catalog :=
  match alookup cat name with
  | some (tm, _) => aupdate cat name (tm, b)
  | none => cat

/-- `on_texture_selected`: set one texture's `tex_import_bool`. -/
def setTexFlag (cat : Catalog) (mname tname : Str) (b : Bool) : Catalog :=
  match alookup cat mname with
  | some (tm, flag) =>
    match alookup tm tname with
    | some (p, _) => aupdate cat mname (aupdate tm tname (p, b), flag)
    | none => cat
  | none => cat

/-- States of the tool reachable through the UI: initialization, folder scans,
catalog reset, per-material and per-texture include toggles, and filter
toggles.  The `Emissive` and `Height` filter checkboxes are disabled
(`enable=False` in `_draw_texture_import_options_box`), so no filter toggle
for those two kinds is reachable.  Builds do not change the state. -/
inductive Reachable : ImporterState → Prop where
  | init : Reachable ⟨[], initFilter⟩
  | scan {c f c'} (folder : Str) (files : List Str) :
      Reachable ⟨c, f⟩ → scanFiles folder c files = Except.ok c' →
      Reachable ⟨c', f⟩
  | reset {c f} : Reachable ⟨c, f⟩ → Reachable ⟨[], f⟩
  | toggleOn {c f} (ty : TexType) :
      Reachable ⟨c, f⟩ → ty ≠ TexType.Emissive → ty ≠ TexType.Height →
      Reachable ⟨c, insertTy ty f⟩
  | toggleOff {c f} (ty : TexType) :
      Reachable ⟨c, f⟩ → ty ≠ TexType.Emissive → ty ≠ TexType.Height →
      Reachable ⟨c, removeTy ty f⟩
  | matFlag {c f} (name : Str) (b : Bool) :
      Reachable ⟨c, f⟩ → Reachable ⟨setMatFlag c name b, f⟩
  | texFlag {c f} (mname tname : Str) (b : Bool) :
      Reachable ⟨c, f⟩ → Reachable ⟨setTexFlag c mname tname b, f⟩

/-! ## Definitions used to state the claims -/

/-- `pat` occurs as a contiguous substring. -/
def containsSub (pat : Str) : Str → Bool
  | [] => ispre pat []
  | c :: rest => ispre pat (c :: rest) || containsSub pat rest

/-- A file name of the schema `Mesh_{M}_mat_{T}.{ext}`. -/
def mkName (M T ext : Str) : Str :=
  str "Mesh_" ++ M ++ str "_mat_" ++ T ++ '.' :: ext

/-- Validity of the tokens of a schema file name `Mesh_{M}_mat_{T}.{ext}`:
the parse is unambiguous (the suffix-token deletion hits only the separator
and the final underscore split returns exactly `T`), and the extension is one
of the accepted ones. -/
def validC1 (M T ext : Str) : Prop :=
  containsSub ['_', 'm', 'a', 't'] M = false ∧ '_' ∉ T ∧
    ispre ['m', 'a', 't'] T = false ∧
    ext ∈ [str "png", str "bmp", str "jpeg", str "jpg"]

/-- Capitalization as the claim words it: first letter uppercased, the rest
of the characters UNCHANGED. -/
def specCapitalize : Str → Str
  | [] => []
  | c :: rest => c.toUpper :: rest

/-- File selection as the claim words it: extension compared
case-insensitively. -/
def ciSelected (file : Str) : Bool :=
  EXTENSIONS.any (fun e => endsw e (file.map Char.toLower))

/-- File selection as amended: the four lowercase extensions as
case-sensitive suffixes. -/
def specSelectedCS (file : Str) : Bool :=
  endsw (str ".png") file || endsw (str ".bmp") file ||
    endsw (str ".jpeg") file || endsw (str ".jpg") file

/-- Every texture entry of `tm` is still present, unchanged, in `tm'`. -/
def texPreserve (tm tm' : TexMap) : Prop :=
  ∀ t e, alookup tm t = some e → alookup tm' t = some e

/-- Every material of `c` is still present in `c'` with the same include flag
and with every one of its texture entries unchanged. -/
def catPreserves (c c' : Catalog) : Prop :=
  ∀ m tm flag, alookup c m = some (tm, flag) →
    ∃ tm', alookup c' m = some (tm', flag) ∧ texPreserve tm tm'

/-- No duplicated material keys, and no duplicated texture keys inside any
material. -/
def keysNodup (cat : Catalog) : Prop :=
  (cat.map Prod.fst).Nodup ∧ ∀ e ∈ cat, (e.2.1.map Prod.fst).Nodup

/-- The host calls emitted by the texture loop of `import_loaded_material`
under the never-failing host, texture by texture. -/
def texEvs (filt : List TexType) (mname : Str) : List (Str × TexEntry) → List HostEv
  | [] => []
  | e :: rest => (processTex alwaysOk filt mname e).evs ++ texEvs filt mname rest

/-- The kind-specific post-connection fixup calls of
`import_loaded_material`. -/
def fixupCalls (mname : Str) (ty : TexType) : List HostEv :=
  if ty = TexType.Normal then
    [HostEv.setAttrNum
      (attrOf (selAfterNav (mname ++ '_' :: ty.tname ++ str "_file")) (str "inputType")) 1]
  else if ty = TexType.Metallic then
    [HostEv.setAttrNum (attrOf mname (str "refl_fresnel_mode")) 2]
  else []

/-- A `defaultNavigation` call that wires a texture into one of the two
permanently excluded shader slots (`Emissive`/`Height`). -/
def isExcludedNav (ev : HostEv) : Bool :=
  match ev with
  | HostEv.defaultNavigation _ d =>
    endsw (str ".emissive_not_implemented") d || endsw (str ".height_not_implemented") d
  | _ => false

/-- A host that refuses to create the shader node of material `n` and accepts
everything else. -/
def denyShaderOf (n : Str) : HostEv → Bool :=
  fun ev => decide (ev = HostEv.shadingNode (str "RedshiftMaterial") n)

/-! ## String lemmas -/

theorem ispre_append_self (a b : Str) : ispre a (a ++ b) = true := by
  induction a with
  | nil => rfl
  | cons c rest ih => simp [ispre, ih]

theorem endsw_append (x suf : Str) : endsw suf (x ++ suf) = true := by
  simp [endsw, List.reverse_append, ispre_append_self]

theorem ispre_append_of_mut (p c z : Str)
    (h : (ispre p c || ispre c p) = false) : ispre p (c ++ z) = false := by
  induction p generalizing c with
  | nil => simp [ispre] at h
  | cons a p' ih =>
    cases c with
    | nil => simp [ispre] at h
    | cons b c' =>
      simp only [ispre, Bool.or_eq_false_iff, Bool.and_eq_false_iff] at h
      rcases h with ⟨h1, h2⟩
      by_cases hab : a = b
      · subst hab
        have h1' : ispre p' c' = false := by
          rcases h1 with h1 | h1
          · simp at h1
          · exact h1
        have h2' : ispre c' p' = false := by
          rcases h2 with h2 | h2
          · simp at h2
          · exact h2
        have hrec := ih c' (by simp [h1', h2'])
        simp only [List.cons_append, ispre, List.append_eq]
        simp only [List.append_eq] at hrec
        rw [hrec]
        simp
      · simp only [List.cons_append, ispre]
        simp [hab]

theorem ispre_append_of_le (p x y : Str) (h : p.length ≤ x.length) :
    ispre p (x ++ y) = ispre p x := by
  induction p generalizing x with
  | nil => simp [ispre]
  | cons a p' ih =>
    cases x with
    | nil => simp at h
    | cons b x' =>
      have hrec := ih x' (by simpa using h)
      simp only [List.cons_append, ispre, List.append_eq]
      simp only [List.append_eq] at hrec
      rw [hrec]

theorem rsplit1_eq_none (sep : Char) (t : Str) (h : sep ∉ t) :
    rsplit1 sep t = none := by
  induction t with
  | nil => rfl
  | cons c rest ih =>
    have hc : ¬ c = sep := by rintro rfl; exact h (List.mem_cons_self _ _)
    have hr : sep ∉ rest := fun hm => h (List.mem_cons_of_mem _ hm)
    simp [rsplit1, ih hr, hc]

theorem rsplit1_last (sep : Char) (m t : Str) (h : sep ∉ t) :
    rsplit1 sep (m ++ sep :: t) = some (m, t) := by
  induction m with
  | nil => simp [rsplit1, rsplit1_eq_none sep t h]
  | cons c m' ih => simp [rsplit1, ih]

theorem replaceMat_cons (c : Char) (rest : Str)
    (h : ispre ['_', 'm', 'a', 't'] (c :: rest) = false) :
    replaceMat (c :: rest) = c :: replaceMat rest := by
  rw [replaceMat.eq_def]
  split
  · rename_i r heq
    rw [heq] at h
    simp [ispre] at h
  · rename_i c' rest' heq
    cases heq
    rfl
  · rename_i heq
    cases heq

theorem replaceMat_no_underscore (t : Str) (h : '_' ∉ t) : replaceMat t = t := by
  induction t with
  | nil => rfl
  | cons c rest ih =>
    have hc : ¬ ('_' = c) := by rintro rfl; exact h (List.mem_cons_self _ _)
    rw [replaceMat_cons c rest (by simp [ispre, hc]), ih (fun hm => h (List.mem_cons_of_mem _ hm))]

theorem replaceMat_boundary (M T : Str)
    (hM : containsSub ['_', 'm', 'a', 't'] M = false)
    (hT1 : '_' ∉ T) (hT2 : ispre ['m', 'a', 't'] T = false) :
    replaceMat (M ++ '_' :: 'm' :: 'a' :: 't' :: '_' :: T) = M ++ '_' :: T := by
  induction M with
  | nil =>
    show replaceMat ('_' :: 'm' :: 'a' :: 't' :: '_' :: T) = '_' :: T
    have h1 : replaceMat ('_' :: 'm' :: 'a' :: 't' :: '_' :: T) = replaceMat ('_' :: T) := rfl
    rw [h1, replaceMat_cons '_' T (by simp [ispre, hT2]),
      replaceMat_no_underscore T hT1]
  | cons c M' ih =>
    simp only [containsSub, Bool.or_eq_false_iff] at hM
    rcases hM with ⟨hp, hs⟩
    have hnp : ispre ['_', 'm', 'a', 't'] (c :: (M' ++ '_' :: 'm' :: 'a' :: 't' :: '_' :: T)) = false := by
      match M', hp with
      | [], _ => simp [ispre]
      | [a], _ => simp [ispre]
      | [a, b], _ => simp [ispre]
      | a :: b :: d :: M'', hp =>
        rw [← List.cons_append, ispre_append_of_le _ _ _ (by simp)]
        exact hp
    rw [List.cons_append, replaceMat_cons _ _ hnp, ih hs, ← List.cons_append]

/-! ## Parsing a schema-conforming file name -/

theorem mkName_assoc (M T ext : Str) :
    mkName M T ext = (str "Mesh_" ++ M ++ (str "_mat_" ++ T)) ++ '.' :: ext := by
  simp [mkName, List.append_assoc]

theorem splitextStem_mkName (M T ext : Str) (hdot : '.' ∉ ext) :
    splitextStem (mkName M T ext) = str "Mesh_" ++ M ++ (str "_mat_" ++ T) := by
  rw [mkName_assoc]
  unfold splitextStem
  rw [rsplit1_last '.' _ ext hdot]

theorem parseName_mkName (M T ext : Str) (h : validC1 M T ext) :
    parseName (mkName M T ext) = some (M, T) := by
  obtain ⟨hM, hT1, hT2, hext⟩ := h
  have hdot : '.' ∉ ext := by
    simp only [List.mem_cons, List.not_mem_nil, or_false] at hext
    rcases hext with rfl | rfl | rfl | rfl <;> decide
  unfold parseName
  rw [splitextStem_mkName M T ext hdot]
  have h2 : removePrefixMesh (str "Mesh_" ++ M ++ (str "_mat_" ++ T))
      = M ++ (str "_mat_" ++ T) := rfl
  rw [h2]
  have h3 : M ++ (str "_mat_" ++ T) = M ++ '_' :: 'm' :: 'a' :: 't' :: '_' :: T := rfl
  rw [h3, replaceMat_boundary M T hM hT1 hT2, rsplit1_last '_' M T hT1]

theorem mkName_ext_append (M T ext : Str) :
    mkName M T ext = (str "Mesh_" ++ M ++ str "_mat_" ++ T) ++ '.' :: ext := by
  simp [mkName, List.append_assoc]

theorem selected_mkName (M T ext : Str)
    (hext : ext ∈ [str "png", str "bmp", str "jpeg", str "jpg"]) :
    selected (mkName M T ext) = true := by
  simp only [List.mem_cons, List.not_mem_nil, or_false] at hext
  simp only [selected, EXTENSIONS, List.any_cons, List.any_nil, Bool.or_eq_true,
    Bool.or_eq_false_iff]
  rcases hext with rfl | rfl | rfl | rfl
  · refine Or.inl ?_
    rw [mkName_ext_append]
    exact endsw_append _ _
  · refine Or.inr (Or.inl ?_)
    rw [mkName_ext_append]
    exact endsw_append _ _
  · refine Or.inr (Or.inr (Or.inl ?_))
    rw [mkName_ext_append]
    exact endsw_append _ _
  · refine Or.inr (Or.inr (Or.inr (Or.inl ?_)))
    rw [mkName_ext_append]
    exact endsw_append _ _

/-! ## Catalog lemmas -/

theorem alookup_append_some {α : Type} (l l₂ : List (Str × α)) (k : Str) (v : α)
    (h : alookup l k = some v) : alookup (l ++ l₂) k = some v := by
  induction l with
  | nil => simp [alookup] at h
  | cons e rest ih =>
    obtain ⟨ek, ev⟩ := e
    by_cases hk : ek = k
    · subst hk
      simp only [alookup, if_pos rfl] at h ⊢
      exact h
    · simp only [alookup, if_neg hk] at h ⊢
      exact ih h

theorem alookup_aupdate_ne {α : Type} (l : List (Str × α)) (key m : Str) (nv : α)
    (h : m ≠ key) : alookup (aupdate l key nv) m = alookup l m := by
  induction l with
  | nil => rfl
  | cons e rest ih =>
    obtain ⟨ek, ev⟩ := e
    by_cases hk : ek = key
    · subst hk
      simp only [aupdate, if_pos rfl, alookup]
      have hne : ¬ ek = m := fun hh => h hh.symm
      simp [hne]
    · simp only [aupdate, if_neg hk, alookup]
      by_cases hm : ek = m
      · simp [hm]
      · simp [hm, ih]

theorem alookup_aupdate_self {α : Type} (l : List (Str × α)) (key : Str) (v nv : α)
    (h : alookup l key = some v) : alookup (aupdate l key nv) key = some nv := by
  induction l with
  | nil => simp [alookup] at h
  | cons e rest ih =>
    obtain ⟨ek, ev⟩ := e
    by_cases hk : ek = key
    · subst hk
      simp [aupdate, alookup]
    · simp only [alookup, if_neg hk] at h
      simp only [aupdate, if_neg hk, alookup, if_neg hk]
      exact ih h

theorem alookup_none_not_mem {α : Type} (l : List (Str × α)) (k : Str)
    (h : alookup l k = none) : k ∉ l.map Prod.fst := by
  induction l with
  | nil => simp
  | cons e rest ih =>
    obtain ⟨ek, ev⟩ := e
    by_cases hk : ek = k
    · subst hk
      simp [alookup] at h
    · simp only [alookup, if_neg hk] at h
      simp only [List.map_cons, List.mem_cons]
      rintro (rfl | hm)
      · exact hk rfl
      · exact ih h hm

theorem aupdate_keys {α : Type} (l : List (Str × α)) (key : Str) (nv : α) :
    (aupdate l key nv).map Prod.fst = l.map Prod.fst := by
  induction l with
  | nil => rfl
  | cons e rest ih =>
    obtain ⟨ek, ev⟩ := e
    by_cases hk : ek = key
    · subst hk
      simp [aupdate]
    · simp [aupdate, hk, ih]

theorem aupdate_mem {α : Type} (l : List (Str × α)) (key : Str) (nv : α) (e : Str × α)
    (h : e ∈ aupdate l key nv) : e = (key, nv) ∨ e ∈ l := by
  induction l with
  | nil => simp [aupdate] at h
  | cons e' rest ih =>
    obtain ⟨ek, ev⟩ := e'
    by_cases hk : ek = key
    · subst hk
      simp only [aupdate, if_true, eq_self_iff_true, List.mem_cons] at h
      rcases h with heq | h
      · exact Or.inl heq
      · exact Or.inr (List.mem_cons_of_mem _ h)
    · simp only [aupdate, if_neg hk, List.mem_cons] at h
      rcases h with heq | h
      · exact Or.inr (heq ▸ List.mem_cons_self _ _)
      · rcases ih h with h | h
        · exact Or.inl h
        · exact Or.inr (List.mem_cons_of_mem _ h)

theorem setdefaultT_preserve (m : TexMap) (k : Str) (v : TexEntry) :
    texPreserve m (setdefaultT m k v) := by
  intro t e h
  unfold setdefaultT
  cases hl : alookup m k with
  | some w => exact h
  | none => exact alookup_append_some m _ t e h

theorem insertEntry_preserves (cat : Catalog) (mk tk p : Str) :
    catPreserves cat (insertEntry cat mk tk p) := by
  intro m tm flag h
  unfold insertEntry
  cases hl : alookup cat mk with
  | some e =>
    obtain ⟨tm0, flag0⟩ := e
    by_cases hm : m = mk
    · subst hm
      rw [h] at hl
      cases hl
      exact ⟨setdefaultT tm tk (p, true),
        alookup_aupdate_self cat m (tm, flag) _ h, setdefaultT_preserve tm tk (p, true)⟩
    · exact ⟨tm, by rw [alookup_aupdate_ne cat mk m _ hm]; exact h, fun t e he => he⟩
  | none =>
    refine ⟨tm, alookup_append_some cat _ m (tm, flag) h, fun t e he => he⟩

theorem catPreserves_trans (a b c : Catalog)
    (h1 : catPreserves a b) (h2 : catPreserves b c) : catPreserves a c := by
  intro m tm flag h
  obtain ⟨tm', hb, hp⟩ := h1 m tm flag h
  obtain ⟨tm'', hc, hp'⟩ := h2 m tm' flag hb
  exact ⟨tm'', hc, fun t e he => hp' t e (hp t e he)⟩

theorem scanStep_preserves (cat cat' : Catalog) (folder file : Str)
    (h : scanStep cat folder file = Except.ok cat') : catPreserves cat cat' := by
  unfold scanStep at h
  by_cases hs : selected file = true
  · rw [if_pos hs] at h
    cases hp : parseName file with
    | none => rw [hp] at h; cases h
    | some mt =>
      rw [hp] at h
      obtain ⟨m, t⟩ := mt
      cases h
      exact insertEntry_preserves cat _ _ _
  · rw [if_neg hs] at h
    cases h
    exact fun m tm flag hh => ⟨tm, hh, fun t e he => he⟩

theorem scanFiles_preserves (folder : Str) (files : List Str) (cat cat' : Catalog)
    (h : scanFiles folder cat files = Except.ok cat') : catPreserves cat cat' := by
  induction files generalizing cat with
  | nil =>
    simp only [scanFiles] at h
    cases h
    exact fun m tm flag hh => ⟨tm, hh, fun t e he => he⟩
  | cons f fs ih =>
    simp only [scanFiles] at h
    cases hstep : scanStep cat folder f with
    | error e => rw [hstep] at h; cases h
    | ok c =>
      rw [hstep] at h
      exact catPreserves_trans _ _ _ (scanStep_preserves cat c folder f hstep) (ih c h)

theorem alookup_some_mem {α : Type} (l : List (Str × α)) (k : Str) (v : α)
    (h : alookup l k = some v) : (k, v) ∈ l := by
  induction l with
  | nil => simp [alookup] at h
  | cons e rest ih =>
    obtain ⟨ek, ev⟩ := e
    by_cases hk : ek = k
    · subst hk
      simp only [alookup, if_true, eq_self_iff_true, Option.some.injEq] at h
      have : (ek, v) = (ek, ev) := by rw [h]
      exact this ▸ List.mem_cons_self _ _
    · simp only [alookup, if_neg hk] at h
      exact List.mem_cons_of_mem _ (ih h)

theorem setdefaultT_nodup (m : TexMap) (k : Str) (v : TexEntry)
    (h : (m.map Prod.fst).Nodup) : ((setdefaultT m k v).map Prod.fst).Nodup := by
  unfold setdefaultT
  cases hl : alookup m k with
  | some w => exact h
  | none =>
    have hk := alookup_none_not_mem m k hl
    simp only [List.map_append, List.map_cons, List.map_nil]
    simp [List.nodup_append, h, hk]

theorem insertEntry_nodup (cat : Catalog) (mk tk p : Str)
    (h : keysNodup cat) : keysNodup (insertEntry cat mk tk p) := by
  obtain ⟨hkeys, hinner⟩ := h
  unfold insertEntry
  cases hl : alookup cat mk with
  | some e =>
    obtain ⟨tm0, flag0⟩ := e
    constructor
    · rw [aupdate_keys]
      exact hkeys
    · intro e he
      rcases aupdate_mem cat mk _ e he with rfl | he'
      · exact setdefaultT_nodup tm0 tk (p, true) (hinner _ (alookup_some_mem cat mk _ hl))
      · exact hinner e he'
  | none =>
    have hk := alookup_none_not_mem cat mk hl
    constructor
    · simp only [List.map_append, List.map_cons, List.map_nil]
      simp [List.nodup_append, hkeys, hk]
    · intro e he
      rcases List.mem_append.mp he with he' | he'
      · exact hinner e he'
      · simp only [List.mem_singleton] at he'
        subst he'
        simp [setdefaultT, alookup]

theorem scanStep_nodup (cat cat' : Catalog) (folder file : Str)
    (h : scanStep cat folder file = Except.ok cat') (hn : keysNodup cat) :
    keysNodup cat' := by
  unfold scanStep at h
  by_cases hs : selected file = true
  · rw [if_pos hs] at h
    cases hp : parseName file with
    | none => rw [hp] at h; cases h
    | some mt =>
      rw [hp] at h
      obtain ⟨m, t⟩ := mt
      cases h
      exact insertEntry_nodup cat _ _ _ hn
  · rw [if_neg hs] at h
    cases h
    exact hn

theorem scanFiles_nodup (folder : Str) (files : List Str) (cat cat' : Catalog)
    (h : scanFiles folder cat files = Except.ok cat') (hn : keysNodup cat) :
    keysNodup cat' := by
  induction files generalizing cat with
  | nil =>
    simp only [scanFiles] at h
    cases h
    exact hn
  | cons f fs ih =>
    simp only [scanFiles] at h
    cases hstep : scanStep cat folder f with
    | error e => rw [hstep] at h; cases h
    | ok c =>
      rw [hstep] at h
      exact ih c h (scanStep_nodup cat c folder f hstep hn)

/-! ## Importer-run lemmas -/

theorem hostCall_ok (ev : HostEv) : hostCall alwaysOk ev = ⟨[ev], none⟩ := rfl

theorem seq_ok (evs : List HostEv) (r : Res) :
    seq ⟨evs, none⟩ r = ⟨evs ++ r.evs, r.err⟩ := rfl

theorem callAll_ok (l : List HostEv) : callAll alwaysOk l = ⟨l, none⟩ := by
  induction l with
  | nil => rfl
  | cons e rest ih => simp [callAll, hostCall_ok, ih, seq]

theorem processTex_ok (filt : List TexType) (mname : Str) (e : Str × TexEntry) :
    (processTex alwaysOk filt mname e).err = none := by
  obtain ⟨t, p, imp⟩ := e
  unfold processTex
  cases imp with
  | false => simp
  | true =>
    simp only [Bool.true_eq_false, if_false]
    cases texTypeOfName t with
    | none => simp [emitPrint]
    | some ty =>
      simp only
      by_cases hf : ty ∈ filt
      · rw [if_pos hf]
        cases ty <;> simp [create_texture_node, callAll_ok, hostCall_ok, seq]
      · rw [if_neg hf]

theorem runTexList_ok (filt : List TexType) (mname : Str) (l : List (Str × TexEntry)) :
    runTexList alwaysOk filt mname l = ⟨texEvs filt mname l, none⟩ := by
  induction l with
  | nil => rfl
  | cons e rest ih =>
    have he := processTex_ok filt mname e
    simp only [runTexList, texEvs, ih]
    cases hpe : processTex alwaysOk filt mname e with
    | mk evs err =>
      rw [hpe] at he
      simp at he
      subst he
      simp [seq]

theorem import_ok (filt : List TexType) (cat : Catalog) (mname : Str)
    (texmap : TexMap) (flag : Bool) (h : alookup cat mname = some (texmap, flag)) :
    import_loaded_material alwaysOk filt cat mname
      = ⟨headerCalls mname ++ texEvs filt mname texmap, none⟩ := by
  unfold import_loaded_material
  rw [h, callAll_ok]
  show seq ⟨headerCalls mname, none⟩ (runTexList alwaysOk filt mname texmap) = _
  rw [runTexList_ok, seq_ok]

/-! ## No call ever targets an excluded shader slot -/

theorem seq_any_false (p : HostEv → Bool) (r₁ r₂ : Res)
    (h1 : r₁.evs.any p = false) (h2 : r₂.evs.any p = false) :
    (seq r₁ r₂).evs.any p = false := by
  unfold seq
  cases hr : r₁.err with
  | some e => exact h1
  | none => simp [List.any_append, h1, h2]

theorem hostCall_any_false (p fail : HostEv → Bool) (ev : HostEv)
    (h : p ev = false) : (hostCall fail ev).evs.any p = false := by
  unfold hostCall
  cases hf : fail ev with
  | true => simp
  | false => simp [h]

theorem callAll_any_false (p fail : HostEv → Bool) (l : List HostEv)
    (h : ∀ e ∈ l, p e = false) : (callAll fail l).evs.any p = false := by
  induction l with
  | nil => rfl
  | cons e rest ih =>
    exact seq_any_false p _ _ (hostCall_any_false p fail e (h e (List.mem_cons_self _ _)))
      (ih (fun e' he' => h e' (List.mem_cons_of_mem _ he')))

theorem endsw_attrOf_false (suf v mname : Str)
    (h : (ispre suf.reverse (v.reverse ++ ['.']) || ispre (v.reverse ++ ['.']) suf.reverse) = false) :
    endsw suf (attrOf mname v) = false := by
  unfold endsw attrOf
  rw [show (mname ++ '.' :: v).reverse = (v.reverse ++ ['.']) ++ mname.reverse by simp]
  exact ispre_append_of_mut _ _ _ h

theorem isExcludedNav_slot (mname s : Str) (ty : TexType)
    (h1 : ty ≠ TexType.Emissive) (h2 : ty ≠ TexType.Height) :
    isExcludedNav (HostEv.defaultNavigation s (attrOf mname ty.tvalue)) = false := by
  cases ty with
  | Emissive => exact absurd rfl h1
  | Height => exact absurd rfl h2
  | BaseColor =>
    show (endsw (str ".emissive_not_implemented") (attrOf mname (str "diffuse_color"))
      || endsw (str ".height_not_implemented") (attrOf mname (str "diffuse_color"))) = false
    rw [endsw_attrOf_false _ _ _ (by decide), endsw_attrOf_false _ _ _ (by decide)]
    rfl
  | Metallic =>
    show (endsw (str ".emissive_not_implemented") (attrOf mname (str "refl_metalness"))
      || endsw (str ".height_not_implemented") (attrOf mname (str "refl_metalness"))) = false
    rw [endsw_attrOf_false _ _ _ (by decide), endsw_attrOf_false _ _ _ (by decide)]
    rfl
  | Normal =>
    show (endsw (str ".emissive_not_implemented") (attrOf mname (str "bump_input"))
      || endsw (str ".height_not_implemented") (attrOf mname (str "bump_input"))) = false
    rw [endsw_attrOf_false _ _ _ (by decide), endsw_attrOf_false _ _ _ (by decide)]
    rfl
  | Roughness =>
    show (endsw (str ".emissive_not_implemented") (attrOf mname (str "refl_roughness"))
      || endsw (str ".height_not_implemented") (attrOf mname (str "refl_roughness"))) = false
    rw [endsw_attrOf_false _ _ _ (by decide), endsw_attrOf_false _ _ _ (by decide)]
    rfl

theorem createTextureCalls_no_nav (nb f : Str) (raw : Bool) :
    ∀ ev ∈ createTextureCalls nb f raw, isExcludedNav ev = false := by
  intro ev hm
  cases ev <;> try rfl
  cases raw <;> simp [createTextureCalls] at hm

theorem processTex_any_false (fail : HostEv → Bool) (filt : List TexType)
    (mname : Str) (e : Str × TexEntry)
    (hE : TexType.Emissive ∉ filt) (hH : TexType.Height ∉ filt) :
    (processTex fail filt mname e).evs.any isExcludedNav = false := by
  obtain ⟨t, p, imp⟩ := e
  unfold processTex
  cases imp with
  | false => simp
  | true =>
    simp only [Bool.true_eq_false, if_false]
    cases texTypeOfName t with
    | none => rfl
    | some ty =>
      simp only
      by_cases hf : ty ∈ filt
      · rw [if_pos hf]
        have hty1 : ty ≠ TexType.Emissive := fun hh => hE (hh ▸ hf)
        have hty2 : ty ≠ TexType.Height := fun hh => hH (hh ▸ hf)
        refine seq_any_false _ _ _
          (callAll_any_false _ fail _ (createTextureCalls_no_nav _ _ _))
          (seq_any_false _ _ _
            (hostCall_any_false _ fail _ (isExcludedNav_slot mname _ ty hty1 hty2)) ?_)
        by_cases hn : ty = TexType.Normal
        · rw [if_pos hn]
          exact hostCall_any_false _ fail _ rfl
        · rw [if_neg hn]
          by_cases hmt : ty = TexType.Metallic
          · rw [if_pos hmt]
            exact hostCall_any_false _ fail _ rfl
          · rw [if_neg hmt]
            rfl
      · rw [if_neg hf]
        rfl

theorem runTexList_any_false (fail : HostEv → Bool) (filt : List TexType)
    (mname : Str) (l : List (Str × TexEntry))
    (hE : TexType.Emissive ∉ filt) (hH : TexType.Height ∉ filt) :
    (runTexList fail filt mname l).evs.any isExcludedNav = false := by
  induction l with
  | nil => rfl
  | cons e rest ih =>
    exact seq_any_false _ _ _ (processTex_any_false fail filt mname e hE hH) ih

theorem import_any_false (fail : HostEv → Bool) (filt : List TexType)
    (cat : Catalog) (mname : Str)
    (hE : TexType.Emissive ∉ filt) (hH : TexType.Height ∉ filt) :
    (import_loaded_material fail filt cat mname).evs.any isExcludedNav = false := by
  unfold import_loaded_material
  refine seq_any_false _ _ _ (callAll_any_false _ fail _ ?_) ?_
  · intro e he
    simp only [headerCalls, List.mem_cons, List.not_mem_nil, or_false] at he
    rcases he with rfl | rfl | rfl <;> rfl
  · cases hl : alookup cat mname with
    | none => rfl
    | some e =>
      obtain ⟨tm, flag⟩ := e
      exact runTexList_any_false fail filt mname tm hE hH

theorem runMatList_any_false (fail : HostEv → Bool) (filt : List TexType)
    (cat : Catalog) (l : List (Str × MatEntry))
    (hE : TexType.Emissive ∉ filt) (hH : TexType.Height ∉ filt) :
    (runMatList fail filt cat l).evs.any isExcludedNav = false := by
  induction l with
  | nil => rfl
  | cons e rest ih =>
    obtain ⟨n, tm, imp⟩ := e
    cases imp with
    | false =>
      show (runMatList fail filt cat ((n, (tm, false)) :: rest)).evs.any isExcludedNav = false
      simp only [runMatList, Bool.false_eq_true, if_false]
      exact ih
    | true =>
      show (runMatList fail filt cat ((n, (tm, true)) :: rest)).evs.any isExcludedNav = false
      simp only [runMatList, if_true]
      exact seq_any_false _ _ _ (import_any_false fail filt cat n hE hH) ih

/-! ## The reachable-filter invariant -/

theorem mem_insertTy (x ty : TexType) (f : List TexType) (h : x ∈ insertTy ty f) :
    x = ty ∨ x ∈ f := by
  unfold insertTy at h
  by_cases hm : ty ∈ f
  · rw [if_pos hm] at h
    exact Or.inr h
  · rw [if_neg hm] at h
    rcases List.mem_cons.mp h with heq | h2
    · exact Or.inl heq
    · exact Or.inr h2

theorem mem_removeTy (x ty : TexType) (f : List TexType) (h : x ∈ removeTy ty f) :
    x ∈ f := by
  unfold removeTy at h
  exact (List.mem_filter.mp h).1

theorem reachable_filter (st : ImporterState) (h : Reachable st) :
    TexType.Emissive ∉ st.texture_type_filter ∧ TexType.Height ∉ st.texture_type_filter := by
  induction h with
  | init => decide
  | scan folder files hr hs ih => exact ih
  | reset hr ih => exact ih
  | toggleOn ty hr h1 h2 ih =>
    obtain ⟨ihE, ihH⟩ := ih
    constructor
    · intro hm
      rcases mem_insertTy _ ty _ hm with heq | hm'
      · exact h1 heq.symm
      · exact ihE hm'
    · intro hm
      rcases mem_insertTy _ ty _ hm with heq | hm'
      · exact h2 heq.symm
      · exact ihH hm'
  | toggleOff ty hr h1 h2 ih =>
    obtain ⟨ihE, ihH⟩ := ih
    exact ⟨fun hm => ihE (mem_removeTy _ ty _ hm), fun hm => ihH (mem_removeTy _ ty _ hm)⟩
  | matFlag name b hr ih => exact ih
  | texFlag mname tname b hr ih => exact ih

/-! ## buildAll refinement and texture-loop composition -/

theorem runMatList_eq_filter (fail : HostEv → Bool) (filt : List TexType)
    (cat : Catalog) (l : List (Str × MatEntry)) :
    runMatList fail filt cat l
      = runIncluded fail filt cat (l.filter (fun e => e.2.2)) := by
  induction l with
  | nil => rfl
  | cons e rest ih =>
    obtain ⟨n, tm, imp⟩ := e
    cases imp with
    | false =>
      show runMatList fail filt cat ((n, (tm, false)) :: rest) = _
      simp only [runMatList, Bool.false_eq_true, if_false]
      rw [ih]
      congr 1
    | true =>
      show runMatList fail filt cat ((n, (tm, true)) :: rest) = _
      simp only [runMatList, if_true]
      have hf : ((n, (tm, true)) :: rest).filter (fun e => e.2.2)
          = (n, (tm, true)) :: rest.filter (fun e => e.2.2) := by
        simp [List.filter_cons]
      rw [ih, hf]
      rfl

theorem texEvs_mem (filt : List TexType) (mname : Str)
    (l : List (Str × TexEntry)) (e : Str × TexEntry) (he : e ∈ l) (ev : HostEv)
    (hev : ev ∈ (processTex alwaysOk filt mname e).evs) :
    ev ∈ texEvs filt mname l := by
  induction l with
  | nil => simp at he
  | cons e' rest ih =>
    rcases List.mem_cons.mp he with heq | hm
    · subst heq
      exact List.mem_append.mpr (Or.inl hev)
    · exact List.mem_append.mpr (Or.inr (ih hm))

/-! ## The texture build step: node names, paths, color space -/

theorem attrOf_ne (node : Str) (a b : Str) (h : a ≠ b) :
    attrOf node a ≠ attrOf node b := by
  intro he
  unfold attrOf at he
  have h2 := List.append_cancel_left he
  injection h2 with h3 h4
  exact h h4

theorem processTex_build (filt : List TexType) (mname t p : Str) (ty : TexType)
    (h1 : texTypeOfName t = some ty) (h2 : ty ∈ filt) :
    processTex alwaysOk filt mname (t, (p, true))
      = ⟨createTextureCalls (mname ++ '_' :: ty.tname) p (decide (ty ≠ TexType.BaseColor))
          ++ HostEv.defaultNavigation (mname ++ '_' :: ty.tname ++ str "_file")
              (attrOf mname ty.tvalue)
            :: fixupCalls mname ty, none⟩ := by
  unfold processTex
  simp only [Bool.true_eq_false, if_false, h1]
  rw [if_pos h2]
  unfold fixupCalls
  by_cases hn : ty = TexType.Normal
  · rw [if_pos hn, if_pos hn]
    simp [create_texture_node, callAll_ok, hostCall_ok, seq]
  · rw [if_neg hn, if_neg hn]
    by_cases hmt : ty = TexType.Metallic
    · rw [if_pos hmt, if_pos hmt]
      simp [create_texture_node, callAll_ok, hostCall_ok, seq]
    · rw [if_neg hmt, if_neg hmt]
      simp [create_texture_node, callAll_ok, hostCall_ok, seq]

theorem mem_create_fileName (nb f : Str) (raw : Bool) :
    HostEv.setAttrStr (attrOf (nb ++ str "_file") (str "fileTextureName")) f
      ∈ createTextureCalls nb f raw := by
  unfold createTextureCalls
  simp

theorem mem_create_raw (nb f : Str) :
    HostEv.setAttrStr (attrOf (nb ++ str "_file") (str "colorSpace")) (str "Raw")
      ∈ createTextureCalls nb f true := by
  unfold createTextureCalls
  simp

theorem not_mem_create_colorSpace (nb f : Str) :
    HostEv.setAttrStr (attrOf (nb ++ str "_file") (str "colorSpace")) (str "Raw")
      ∉ createTextureCalls nb f false := by
  intro hm
  unfold createTextureCalls at hm
  simp only [List.mem_append, List.mem_cons, List.not_mem_nil, or_false,
    List.mem_map, if_false, Bool.false_eq_true] at hm
  rcases hm with (((h | h) | ⟨c, hc, h⟩) | ⟨ab, hab, h⟩) | h
  · exact HostEv.noConfusion h
  · exact HostEv.noConfusion h
  · exact HostEv.noConfusion h
  · exact HostEv.noConfusion h
  · injection h with ha hv
    exact attrOf_ne _ _ _ (by decide) ha

/-! # Claim theorems -/

/-- C1 (counterexample): the claim says the catalog key is `M` with its first
letter uppercased and the REST UNCHANGED.  For the valid schema file
`Mesh_aB_mat_BaseColor.png` (`M = "aB"`), the claimed key would be `"AB"`,
but the scan stores the entry under `"Ab"` (Python `str.capitalize` lowercases
the rest): the claimed key is absent from the resulting catalog. -/
theorem c1_key_counterexample :
    specCapitalize (str "aB") = str "AB" ∧
    scanFiles (str "/f") [] [str "Mesh_aB_mat_BaseColor.png"]
      = Except.ok [(str "Ab",
          ([(str "BaseColor", (str "/f/Mesh_aB_mat_BaseColor.png", true))], true))] ∧
    alookup [((str "Ab"),
        (([(str "BaseColor", (str "/f/Mesh_aB_mat_BaseColor.png", true))] : TexMap), true))]
      (str "AB") = none := by
  refine ⟨rfl, rfl, rfl⟩

/-- C1 (amended): for every valid filename `Mesh_{M}_mat_{T}.ext` in the
scanned directory, the scan produces a catalog entry whose key is `M`
capitalized in the Python sense (first letter uppercased, all remaining
characters LOWERCASED), containing a texture entry keyed `T` whose stored
path is the path of that file. -/
theorem c1_valid_scan (folder M T ext : Str) (h : validC1 M T ext) :
    scanFiles folder [] [mkName M T ext]
      = Except.ok [(capitalizeP M,
          ([(T, (pathJoin folder (mkName M T ext), true))], true))] := by
  have hsel := selected_mkName M T ext h.2.2.2
  have hp := parseName_mkName M T ext h
  simp only [scanFiles, scanStep, hsel, if_true, hp]
  rfl

theorem c1_valid_scan_witness :
    scanFiles (str "/assets") [] [mkName (str "rock") (str "BaseColor") (str "png")]
      = Except.ok [(capitalizeP (str "rock"),
          ([(str "BaseColor",
             (pathJoin (str "/assets") (mkName (str "rock") (str "BaseColor") (str "png")),
              true))], true))] :=
  c1_valid_scan (str "/assets") (str "rock") (str "BaseColor") (str "png")
    (by unfold validC1; decide)

/-- C2: the claim says a file with a matching extension that fails to parse is
skipped and scanning continues.  The code instead raises an uncaught
`ValueError` from the tuple unpacking of `rsplit`: scanning the listing
`["a.png", "Mesh_Rock_mat_BaseColor.png"]` aborts the whole scan on the first
file and the valid second file is never processed. -/
theorem c2_parse_failure_aborts :
    scanFiles (str "/f") [] [str "a.png", str "Mesh_Rock_mat_BaseColor.png"]
      = Except.error Err.valueError := by
  rfl

/-- C3: the claim says a host-call failure aborts only the failing material's
build and subsequent included materials are still processed.  With a host
that refuses to create material `Alpha`'s shader node, the batch import of
the catalog `[Alpha (included), Beta (included)]` stops at `Alpha` with the
exception uncaught: its result carries the host failure and an EMPTY call
trace, so no call for `Beta` is ever issued. -/
theorem c3_batch_aborts :
    import_all_loaded_materials (denyShaderOf (str "Alpha"))
      ⟨[(str "Alpha", ([(str "BaseColor", (str "/f/a.png", true))], true)),
        (str "Beta", ([(str "BaseColor", (str "/f/b.png", true))], true))], initFilter⟩
      = ⟨[], some (Err.hostFail (HostEv.shadingNode (str "RedshiftMaterial") (str "Alpha")))⟩ := by
  rfl

/-- C4: re-running the scan on the same directory listing without clearing the
catalog leaves every previously existing texture entry (path and include
flag) and every material include flag unchanged, and introduces no duplicate
keys: `dict.setdefault` makes the first write win. -/
theorem c4_rescan_preserves (folder : Str) (files : List Str) (c₀ c₁ c₂ : Catalog)
    (_h1 : scanFiles folder c₀ files = Except.ok c₁)
    (h2 : scanFiles folder c₁ files = Except.ok c₂) :
    catPreserves c₁ c₂ ∧ (keysNodup c₁ → keysNodup c₂) :=
  ⟨scanFiles_preserves folder files c₁ c₂ h2,
   fun hn => scanFiles_nodup folder files c₁ c₂ h2 hn⟩

theorem c4_rescan_preserves_witness :
    catPreserves
      [(str "Rock", ([(str "BaseColor", (str "/f/Mesh_rock_mat_BaseColor.png", true))], true))]
      [(str "Rock", ([(str "BaseColor", (str "/f/Mesh_rock_mat_BaseColor.png", true))], true))] ∧
    (keysNodup
      [(str "Rock", ([(str "BaseColor", (str "/f/Mesh_rock_mat_BaseColor.png", true))], true))] →
     keysNodup
      [(str "Rock", ([(str "BaseColor", (str "/f/Mesh_rock_mat_BaseColor.png", true))], true))]) :=
  c4_rescan_preserves (str "/f") [str "Mesh_rock_mat_BaseColor.png"] []
    [(str "Rock", ([(str "BaseColor", (str "/f/Mesh_rock_mat_BaseColor.png", true))], true))]
    [(str "Rock", ([(str "BaseColor", (str "/f/Mesh_rock_mat_BaseColor.png", true))], true))]
    rfl rfl

/-- C5 (counterexample): the claim says the extension comparison is
case-insensitive, so `a.PNG` would be selected.  The code's
`file.endswith((".png", ...))` is case-sensitive: `a.PNG` is NOT selected
(while the claim-side case-insensitive test accepts it), and scanning a
directory containing only `a.PNG` leaves the catalog empty. -/
theorem c5_extension_counterexample :
    selected (str "a.PNG") = false ∧ ciSelected (str "a.PNG") = true ∧
    scanFiles (str "/f") [] [str "a.PNG"] = Except.ok [] := by
  refine ⟨rfl, rfl, rfl⟩

/-- C5 (amended): a file name is selected for parsing exactly when one of the
four LOWERCASE extensions `.png`, `.bmp`, `.jpeg`, `.jpg` is a
case-sensitive suffix of the name; a non-selected file leaves the catalog
untouched. -/
theorem c5_extension_selection (file : Str) (cat : Catalog) (folder : Str) :
    selected file = specSelectedCS file ∧
    (selected file = false → scanStep cat folder file = Except.ok cat) := by
  constructor
  · simp [selected, EXTENSIONS, specSelectedCS, Bool.or_assoc]
  · intro h
    simp [scanStep, h]

theorem c5_extension_selection_witness :
    selected (str "x.txt") = specSelectedCS (str "x.txt") ∧
    (selected (str "x.txt") = false → scanStep [] (str "/f") (str "x.txt") = Except.ok []) :=
  c5_extension_selection (str "x.txt") [] (str "/f")

/-- C6: during `import_loaded_material`, an included texture entry whose token
matches no `TexType` name contributes exactly one `print` diagnostic naming
the material, the token and the file path, and nothing else; the material's
build raises no exception, and its call trace is the header followed by the
texture loop over ALL entries of the texture dict (processing continues with
the remaining textures). -/
theorem c6_unmatched_token (filt : List TexType) (mname t p : Str) (cat : Catalog)
    (texmap : TexMap) (flag : Bool)
    (ht : texTypeOfName t = none)
    (hmem : (t, (p, true)) ∈ texmap)
    (hc : alookup cat mname = some (texmap, flag)) :
    processTex alwaysOk filt mname (t, (p, true))
        = ⟨[HostEv.printMsg (diagMsg mname t p)], none⟩ ∧
    (import_loaded_material alwaysOk filt cat mname).err = none ∧
    (import_loaded_material alwaysOk filt cat mname).evs
        = headerCalls mname ++ texEvs filt mname texmap ∧
    HostEv.printMsg (diagMsg mname t p) ∈ (import_loaded_material alwaysOk filt cat mname).evs := by
  have hpt : processTex alwaysOk filt mname (t, (p, true))
      = ⟨[HostEv.printMsg (diagMsg mname t p)], none⟩ := by
    unfold processTex
    simp [ht, emitPrint]
  have him := import_ok filt cat mname texmap flag hc
  refine ⟨hpt, by rw [him], by rw [him], ?_⟩
  rw [him]
  refine List.mem_append.mpr (Or.inr ?_)
  refine texEvs_mem filt mname texmap _ hmem _ ?_
  rw [hpt]
  exact List.mem_cons_self _ _

theorem c6_unmatched_token_witness :
    processTex alwaysOk initFilter (str "A") (str "Foo", (str "/f/p.png", true))
        = ⟨[HostEv.printMsg (diagMsg (str "A") (str "Foo") (str "/f/p.png"))], none⟩ ∧
    (import_loaded_material alwaysOk initFilter
        [(str "A", ([(str "Foo", (str "/f/p.png", true))], true))] (str "A")).err = none ∧
    (import_loaded_material alwaysOk initFilter
        [(str "A", ([(str "Foo", (str "/f/p.png", true))], true))] (str "A")).evs
        = headerCalls (str "A")
          ++ texEvs initFilter (str "A") [(str "Foo", (str "/f/p.png", true))] ∧
    HostEv.printMsg (diagMsg (str "A") (str "Foo") (str "/f/p.png"))
        ∈ (import_loaded_material alwaysOk initFilter
        [(str "A", ([(str "Foo", (str "/f/p.png", true))], true))] (str "A")).evs :=
  c6_unmatched_token initFilter (str "A") (str "Foo") (str "/f/p.png")
    [(str "A", ([(str "Foo", (str "/f/p.png", true))], true))]
    [(str "Foo", (str "/f/p.png", true))] true rfl (List.mem_cons_self _ _) rfl

/-- C7: in every reachable state of the tool (initialization, folder scans,
catalog resets, include-flag toggles, and filter toggles — the `Emissive` and
`Height` filter checkboxes being disabled), a batch import against ANY host
never issues a `defaultNavigation` call wiring a texture into the `Emissive`
or `Height` shader slot, even when such a texture's include flag is true. -/
theorem c7_excluded_never_wired (st : ImporterState) (h : Reachable st)
    (fail : HostEv → Bool) :
    (import_all_loaded_materials fail st).evs.any isExcludedNav = false := by
  obtain ⟨hE, hH⟩ := reachable_filter st h
  unfold import_all_loaded_materials
  exact runMatList_any_false fail _ _ _ hE hH

theorem c7_excluded_never_wired_witness :
    (import_all_loaded_materials alwaysOk
      ⟨[(str "A", ([(str "Emissive", (str "/f/Mesh_a_mat_Emissive.png", true))], true))],
        initFilter⟩).evs.any isExcludedNav = false :=
  c7_excluded_never_wired _
    (Reachable.scan (str "/f") [str "Mesh_a_mat_Emissive.png"] Reachable.init rfl)
    alwaysOk

/-- C8: for every texture the build step wires (include flag true, token
resolved, kind in the filter), the created sampling (file) node has its
source file path set to the catalog entry's path, and its color space is set
to "Raw" if and only if the texture's kind is not `BaseColor`. -/
theorem c8_path_and_colorspace (filt : List TexType) (mname t p : Str) (ty : TexType)
    (h1 : texTypeOfName t = some ty) (h2 : ty ∈ filt) :
    HostEv.setAttrStr (attrOf (mname ++ '_' :: ty.tname ++ str "_file")
        (str "fileTextureName")) p
      ∈ (processTex alwaysOk filt mname (t, (p, true))).evs ∧
    (HostEv.setAttrStr (attrOf (mname ++ '_' :: ty.tname ++ str "_file")
        (str "colorSpace")) (str "Raw")
      ∈ (processTex alwaysOk filt mname (t, (p, true))).evs ↔ ty ≠ TexType.BaseColor) := by
  rw [processTex_build filt mname t p ty h1 h2]
  refine ⟨List.mem_append.mpr (Or.inl (mem_create_fileName _ p _)), ?_, ?_⟩
  · intro hmem hty
    subst hty
    rw [show (decide (TexType.BaseColor ≠ TexType.BaseColor)) = false from rfl] at hmem
    rcases List.mem_append.mp hmem with hc | hc
    · exact not_mem_create_colorSpace _ p hc
    · rcases List.mem_cons.mp hc with heq | hfix
      · exact HostEv.noConfusion heq
      · simp [fixupCalls] at hfix
  · intro hty
    rw [decide_eq_true hty]
    exact List.mem_append.mpr (Or.inl (mem_create_raw _ p))

theorem c8_path_and_colorspace_witness :
    HostEv.setAttrStr (attrOf ((str "A") ++ '_' :: TexType.Metallic.tname ++ str "_file")
        (str "fileTextureName")) (str "/f/p.png")
      ∈ (processTex alwaysOk initFilter (str "A")
          (str "Metallic", (str "/f/p.png", true))).evs ∧
    (HostEv.setAttrStr (attrOf ((str "A") ++ '_' :: TexType.Metallic.tname ++ str "_file")
        (str "colorSpace")) (str "Raw")
      ∈ (processTex alwaysOk initFilter (str "A")
          (str "Metallic", (str "/f/p.png", true))).evs ↔ TexType.Metallic ≠ TexType.BaseColor) :=
  c8_path_and_colorspace initFilter (str "A") (str "Metallic") (str "/f/p.png")
    TexType.Metallic rfl (by decide)

/-- C9: `import_all_loaded_materials` equals the spec-side `buildAll`: iterate
the catalog in mapping order and run `import_loaded_material` exactly for the
materials whose include flag is true; a material with include flag false
contributes nothing. -/
theorem c9_buildAll_included (fail : HostEv → Bool) (st : ImporterState) :
    import_all_loaded_materials fail st = specBuildAll fail st := by
  unfold import_all_loaded_materials specBuildAll
  exact runMatList_eq_filter fail _ _ _

/-- C10: calling `import_loaded_material` with a material name that is not a
key of the catalog raises an uncaught `KeyError` AFTER the shader node, the
shading-group node and their connection have already been requested from the
host: the result's trace is exactly the three header calls and its error is
the `KeyError`. -/
theorem c10_missing_material_keyError (filt : List TexType) (cat : Catalog) (mname : Str)
    (h : alookup cat mname = none) :
    import_loaded_material alwaysOk filt cat mname
      = ⟨headerCalls mname, some (Err.keyError mname)⟩ := by
  unfold import_loaded_material
  rw [h, callAll_ok]
  show seq ⟨headerCalls mname, none⟩ ⟨[], some (Err.keyError mname)⟩ = _
  simp [seq]

theorem c10_missing_material_keyError_witness :
    import_loaded_material alwaysOk initFilter [(str "B", ([], true))] (str "A")
      = ⟨headerCalls (str "A"), some (Err.keyError (str "A"))⟩ :=
  c10_missing_material_keyError initFilter [(str "B", ([], true))] (str "A") rfl

end MatImp
